import Mathlib

/-!
Verification of the mp3-tagger-web recognition pipeline.

This file shallowly embeds the confidence-scoring, fallback-orchestration and
album-recognition logic of the repository (src/tagger/album_recognition.py,
src/tagger/online_metadata.py, src/tagger/fallback_analysis.py,
src/tagger/core.py) and proves properties of the embedded code.

Modelling conventions:
* Python strings are modelled as `List Char` (`PyStr`); only ASCII-relevant
  behaviour of `str.lower`, `str.strip`, `str.isdigit` and of the regular
  expressions is modelled, which covers all inputs appearing in the claims.
* Python floats are modelled as exact rationals `ℚ` (the spec states all
  confidence arithmetic over exact decimals).
* Network calls (MusicBrainz / Last.fm / Discogs lookups, release evaluation,
  audio fingerprinting) are modelled as oracle parameters; a lookup that
  raises is an `Except.error` value or an `Option.none` result, matching the
  `try/except` structure of the source.
* A Python `dict` field read with a falsy default is modelled with `Option`,
  where `none` stands for both a missing key and `None`; an empty string is
  its own falsy value and is tested explicitly where the source tests
  truthiness of a possibly-empty string.
-/

/-! ## Python string primitives -/

abbrev PyStr := List Char

/-- Convert a Lean string literal to the embedded representation. -/
def chars (s : String) : PyStr := s.data

/-- The characters removed by Python `str.strip()` and matched by `\s`. -/
def isPySpace (c : Char) : Bool :=
  c.toNat = 32 ∨ c.toNat = 9 ∨ c.toNat = 10 ∨ c.toNat = 13 ∨ c.toNat = 11 ∨ c.toNat = 12

/-- ASCII decimal digit, as matched by `\d` / `str.isdigit` on the inputs considered. -/
def isPyDigit (c : Char) : Bool := 48 ≤ c.toNat ∧ c.toNat ≤ 57

/-- ASCII letter. -/
def isAsciiAlpha (c : Char) : Bool :=
  (65 ≤ c.toNat ∧ c.toNat ≤ 90) ∨ (97 ≤ c.toNat ∧ c.toNat ≤ 122)

/-- Regex word character `\w` (ASCII model). -/
def isWordChar (c : Char) : Bool := isAsciiAlpha c ∨ isPyDigit c ∨ c = '_'

/-- ASCII lower-casing of one character (`str.lower` on the ASCII inputs considered). -/
def asciiLower (c : Char) : Char :=
  if 65 ≤ c.toNat ∧ c.toNat ≤ 90 then Char.ofNat (c.toNat + 32) else c

/-- `str.lower()`. -/
def pyLower (s : PyStr) : PyStr := s.map asciiLower

/-- `str.strip()`: drop leading and trailing whitespace. -/
def pyStrip (s : PyStr) : PyStr :=
  ((s.dropWhile isPySpace).reverse.dropWhile isPySpace).reverse

/-- Does `l` start with `p`? -/
def startsList (l p : PyStr) : Bool :=
  match p, l with
  | [], _ => true
  | _ :: _, [] => false
  | c :: cs, d :: ds => c = d ∧ startsList ds cs

/-- Python `needle in haystack` (substring containment). -/
def hasSub (haystack needle : PyStr) : Bool :=
  startsList haystack needle ||
    match haystack with
    | [] => false
    | _ :: ds => hasSub ds needle

/-- Index of the first occurrence of `needle` in `haystack`, if any. -/
def findSubIdx (haystack needle : PyStr) : Option ℕ :=
  if startsList haystack needle then some 0
  else
    match haystack with
    | [] => none
    | _ :: ds => (findSubIdx ds needle).map (· + 1)

/-- Python `s.split(sep, 1)`: the part before the first occurrence of `sep`,
and, when `sep` occurs, the part after it. -/
def splitOnce (sep s : PyStr) : PyStr × Option PyStr :=
  match findSubIdx s sep with
  | none => (s, none)
  | some i => (s.take i, some (s.drop (i + sep.length)))

/-- Fuelled worker for `splitSep`. -/
def splitSepGo (sep : PyStr) : ℕ → PyStr → List PyStr
  | 0, s => [s]
  | fuel + 1, s =>
    match findSubIdx s sep with
    | none => [s]
    | some i => s.take i :: splitSepGo sep fuel (s.drop (i + sep.length))

/-- Python `s.split(sep)` for a non-empty separator. -/
def splitSep (sep s : PyStr) : List PyStr :=
  if sep = [] then [s] else splitSepGo sep (s.length + 1) s

/-- Python `sep.join(parts)`. -/
def joinSep (sep : PyStr) : List PyStr → PyStr
  | [] => []
  | [p] => p
  | p :: ps => p ++ sep ++ joinSep sep ps

/-- Fuelled worker for `replaceAll`. -/
def replaceAllGo (pat repl : PyStr) : ℕ → PyStr → PyStr
  | 0, s => s
  | fuel + 1, s =>
    match findSubIdx s pat with
    | none => s
    | some i => s.take i ++ repl ++ replaceAllGo pat repl fuel (s.drop (i + pat.length))

/-- Python `s.replace(pat, repl)` for a non-empty pattern. -/
def replaceAll (pat repl s : PyStr) : PyStr :=
  if pat = [] then s else replaceAllGo pat repl (s.length + 1) s

/-- Truthiness of an optional string (`None` and `''` are falsy in Python). -/
def optTruthy (o : Option PyStr) : Bool :=
  match o with
  | some s => s ≠ []
  | none => false

/-! ## album_recognition.py -/

namespace AlbumRecognition

/-- One entry of the `files_info` list: the `title` / `artist` fields of a
file's dict (absent key or `None` modelled as `none`). -/
structure FileInfo where
  title : Option PyStr
  artist : Option PyStr
deriving DecidableEq

/-- One entry of an album candidate's track list; only the `title` field is
read by the scoring code (`t.get('title', '')`). -/
structure TrackInfo where
  title : Option PyStr
deriving DecidableEq

/-- `AlbumRecognitionService._fuzzy_match(str1, str2, threshold)`. -/
def fuzzy_match (str1 str2 : PyStr) (threshold : ℚ) : Bool :=
  if str1 = [] ∨ str2 = [] then false
  else
    let longer := if str1.length > str2.length then str1 else str2
    let shorter := if str1.length > str2.length then str2 else str1
    if longer.length = 0 then true
    else
      let nMatches := shorter.countP (fun c => longer.contains c)
      decide (threshold ≤ (nMatches : ℚ) / (longer.length : ℚ))

/-- `AlbumRecognitionService._calculate_confidence(files_info, album_tracks)`
(the spec's `scoreAlbumMatch`). -/
def calculate_confidence (files_info : List FileInfo) (album_tracks : List TrackInfo) : ℚ :=
  if files_info = [] ∨ album_tracks = [] then 0
  else
    let file_titles :=
      (files_info.filter (fun f => optTruthy f.title)).map
        (fun f => pyStrip (pyLower (f.title.getD [])))
    let album_titles := album_tracks.map (fun t => pyStrip (pyLower (t.title.getD [])))
    if file_titles = [] ∨ album_titles = [] then 0
    else
      let exact_matches : ℕ :=
        file_titles.foldl (fun n ft => if album_titles.contains ft then n + 1 else n) 0
      let fuzzy_matches : ℕ :=
        file_titles.foldl
          (fun n ft =>
            if album_titles.any
                (fun a2 => ft ≠ [] && a2 ≠ [] &&
                  (hasSub a2 ft || hasSub ft a2 || fuzzy_match ft a2 (8/10)))
            then n + 1 else n) 0
      let total_files : ℚ := (file_titles.length : ℚ)
      let confidence := ((exact_matches : ℚ) * 1 + (fuzzy_matches : ℚ) * (7/10)) / total_files
      let confidence :=
        if |(album_tracks.length : ℤ) - (file_titles.length : ℤ)| ≤ 2
        then confidence + 1/10 else confidence
      min confidence 1

/-- The predicate the claim uses for a fuzzy match between one file title and
one album-track title (substring either way, or character-overlap ratio at
least 0.8 against the longer string); stated on already-normalised titles. -/
def claimFuzzyPred (ft a2 : PyStr) : Bool :=
  ft ≠ [] && a2 ≠ [] && (hasSub a2 ft || hasSub ft a2 || fuzzy_match ft a2 (8/10))

/-- `scoreAlbumMatch` as the claim words it: exact matches are counted once,
and a file title counted as an exact match is NOT additionally counted as a
fuzzy match. Spec-side definition, written from the claim's words, to be
compared with `calculate_confidence` which is translated from the source. -/
def scoreAlbumMatchClaim (files_info : List FileInfo) (album_tracks : List TrackInfo) : ℚ :=
  if files_info = [] ∨ album_tracks = [] then 0
  else
    let file_titles :=
      (files_info.filter (fun f => optTruthy f.title)).map
        (fun f => pyStrip (pyLower (f.title.getD [])))
    let album_titles := album_tracks.map (fun t => pyStrip (pyLower (t.title.getD [])))
    if file_titles = [] ∨ album_titles = [] then 0
    else
      let exactMatches : ℕ := file_titles.countP (fun ft => album_titles.contains ft)
      let fuzzyMatches : ℕ :=
        file_titles.countP
          (fun ft => ¬ album_titles.contains ft ∧ album_titles.any (claimFuzzyPred ft))
      let total : ℚ := (file_titles.length : ℚ)
      let score := ((exactMatches : ℚ) * 1 + (fuzzyMatches : ℚ) * (7/10)) / total
      let score :=
        if |(album_tracks.length : ℤ) - (file_titles.length : ℤ)| ≤ 2
        then score + 1/10 else score
      min score 1

/-- `AlbumCandidate` dataclass (the `tracks` list is carried unchanged by the
code modelled here). -/
structure AlbumCandidate where
  title : PyStr
  artist : PyStr
  year : Option PyStr
  track_count : ℕ
  tracks : List TrackInfo
  confidence : ℚ
  source : PyStr
  external_id : PyStr
deriving DecidableEq

/-- A MusicBrainz search hit as consumed by the dedup logic: only its `id`
field is read before the (network-performed) evaluation. -/
structure MBRelease where
  id : PyStr
deriving DecidableEq

/-- A Discogs search hit as consumed by the filtering logic. -/
structure DiscogsRelease where
  isMaster : Bool
  title : Option PyStr
deriving DecidableEq

/-- Network / external-service oracle for one `recognize_album` run:
the MusicBrainz artist-level search result, the MusicBrainz per-track search
results, the evaluation `_evaluate_mb_release` (which fetches release details
over the network and returns `None` on an internal exception), and the same
for Discogs. -/
structure RecognizeEnv where
  mbArtistSearch : List MBRelease
  mbTrackSearch : PyStr → List MBRelease
  mbEval : MBRelease → Option AlbumCandidate
  hasDiscogsClient : Bool
  discogsSearch : List DiscogsRelease
  discogsEval : DiscogsRelease → Option AlbumCandidate

/-- One step of the MusicBrainz release loop: skip already-processed release
ids, mark the id processed, and keep an evaluated candidate when its
confidence exceeds 0.2. State is (processed ids, collected candidates). -/
def mbStep (evalRel : MBRelease → Option AlbumCandidate)
    (st : List PyStr × List AlbumCandidate) (r : MBRelease) :
    List PyStr × List AlbumCandidate :=
  if st.1.contains r.id then st
  else
    let processed := st.1 ++ [r.id]
    match evalRel r with
    | some c => if c.confidence > 1/5 then (processed, st.2 ++ [c]) else (processed, st.2)
    | none => (processed, st.2)

/-- `AlbumRecognitionService._search_musicbrainz(files_info)`. -/
def search_musicbrainz (env : RecognizeEnv) (files_info : List FileInfo) :
    List AlbumCandidate :=
  let artists :=
    (files_info.filter (fun f => optTruthy f.artist)).map (fun f => pyStrip (f.artist.getD []))
  let titles :=
    (files_info.filter (fun f => optTruthy f.title)).map (fun f => pyStrip (f.title.getD []))
  if artists = [] ∨ titles = [] then []
  else
    let st1 := env.mbArtistSearch.foldl (mbStep env.mbEval) ([], [])
    if st1.2.length < 3 ∧ titles ≠ [] then
      ((titles.take 3).foldl (fun st t => (env.mbTrackSearch t).foldl (mbStep env.mbEval) st) st1).2
    else st1.2

/-- One step of the Discogs release loop: stop after 15 kept candidates, skip
masters and releases without a title, and keep an evaluated candidate when its
confidence exceeds 0.3. State is (processed count, collected candidates). -/
def discogsStep (evalRel : DiscogsRelease → Option AlbumCandidate)
    (st : ℕ × List AlbumCandidate) (r : DiscogsRelease) : ℕ × List AlbumCandidate :=
  if st.1 ≥ 15 then st
  else if r.isMaster then st
  else if ¬ optTruthy r.title then st
  else
    match evalRel r with
    | some c => if c.confidence > 3/10 then (st.1 + 1, st.2 ++ [c]) else st
    | none => st

/-- `AlbumRecognitionService._search_discogs(files_info)`. -/
def search_discogs (env : RecognizeEnv) (files_info : List FileInfo) :
    List AlbumCandidate :=
  if ¬ env.hasDiscogsClient then []
  else
    let artists :=
      (files_info.filter (fun f => optTruthy f.artist)).map (fun f => pyStrip (f.artist.getD []))
    if artists = [] then []
    else (env.discogsSearch.foldl (discogsStep env.discogsEval) (0, [])).2

/-- Stable insertion of a candidate into a confidence-descending list: the new
element goes after all existing elements of greater-or-equal confidence. -/
def insertByConfDesc (x : AlbumCandidate) : List AlbumCandidate → List AlbumCandidate
  | [] => [x]
  | y :: ys => if x.confidence ≤ y.confidence then y :: insertByConfDesc x ys else x :: y :: ys

/-- `candidates.sort(key=lambda x: x.confidence, reverse=True)`: Python's
stable sort, descending by confidence. -/
def sortByConfDesc (l : List AlbumCandidate) : List AlbumCandidate :=
  l.foldl (fun acc x => insertByConfDesc x acc) []

/-- `max((c.confidence for c in candidates), default=0)`. -/
def maxConfidence : List AlbumCandidate → ℚ
  | [] => 0
  | c :: cs => cs.foldl (fun m x => max m x.confidence) c.confidence

/-- The cache key of `_generate_cache_key`: Python hashes the tuple of the
sorted title list followed by the sorted artist list; the key is modelled by
that tuple itself. -/
abbrev CacheKey := List PyStr × List PyStr

/-- Lexicographic (code-point) order on strings, as used by Python `sorted`. -/
def lexLe : PyStr → PyStr → Bool
  | [], _ => true
  | _ :: _, [] => false
  | c :: cs, d :: ds => c.toNat < d.toNat ∨ (c = d ∧ lexLe cs ds)

/-- Stable ascending insertion for `sorted`. -/
def insertLex (x : PyStr) : List PyStr → List PyStr
  | [] => [x]
  | y :: ys => if lexLe y x then y :: insertLex x ys else x :: y :: ys

/-- Python `sorted` on a list of strings. -/
def sortedLex (l : List PyStr) : List PyStr :=
  l.foldl (fun acc x => insertLex x acc) []

/-- `AlbumRecognitionService._generate_cache_key(files_info)`. -/
def generate_cache_key (files_info : List FileInfo) : CacheKey :=
  (sortedLex ((files_info.filter (fun f => optTruthy f.title)).map (fun f => f.title.getD [])),
   sortedLex ((files_info.filter (fun f => optTruthy f.artist)).map (fun f => f.artist.getD [])))

/-- The recognition cache (`self.cache`), an association list keyed by
`CacheKey`. -/
abbrev Cache := List (CacheKey × (List AlbumCandidate × ℚ))

/-- Association-list lookup. -/
def cacheLookup (cache : Cache) (k : CacheKey) : Option (List AlbumCandidate × ℚ) :=
  match cache with
  | [] => none
  | (k2, v) :: rest => if k2 = k then some v else cacheLookup rest k

/-- The observable outcome of one `recognize_album` call: the returned value,
the cache after the call, and which effects happened during the call. -/
structure RecognizeOutcome where
  result : List AlbumCandidate × ℚ
  cacheOut : Cache
  cacheLookedUp : Bool
  mbQueried : Bool
  discogsQueried : Bool

/-- `AlbumRecognitionService.recognize_album(files_info)`. MusicBrainz and
Discogs searches catch their own exceptions internally (returning partial
candidate lists), so the outer `try/except` blocks are identities here. -/
def recognize_album (env : RecognizeEnv) (cache : Cache) (files_info : List FileInfo) :
    RecognizeOutcome :=
  if files_info = [] then
    { result := ([], 0), cacheOut := cache, cacheLookedUp := false,
      mbQueried := false, discogsQueried := false }
  else
    let key := generate_cache_key files_info
    match cacheLookup cache key with
    | some res =>
      { result := res, cacheOut := cache, cacheLookedUp := true,
        mbQueried := false, discogsQueried := false }
    | none =>
      let mbCands := search_musicbrainz env files_info
      let best_mb_confidence := if mbCands ≠ [] then maxConfidence mbCands else 0
      let useDiscogs := mbCands.length < 2 ∨ best_mb_confidence < 3/5
      let candidates :=
        if useDiscogs then mbCands ++ search_discogs env files_info else mbCands
      let candidates := sortByConfDesc candidates
      let candidates := candidates.take 5
      let max_confidence := maxConfidence candidates
      let result := (candidates, max_confidence)
      { result := result, cacheOut := cache ++ [(key, result)], cacheLookedUp := true,
        mbQueried := true, discogsQueried := useDiscogs }

end AlbumRecognition

/-! ## online_metadata.py -/

namespace OnlineMetadata

/-- The `search_info` dict built by `_extract_search_info` (empty string =
falsy / missing value, as in the source's truthiness tests). -/
structure SearchInfo where
  artist : PyStr
  title : PyStr
  album : PyStr
  filename : PyStr
deriving DecidableEq

/-- A provider result dict (from `_search_musicbrainz` / `_search_lastfm`) or
the combined dict of `_combine_results`. Keys a given dict does not carry are
modelled as `none`; since every key of the base `results` dict that holds a
non-`None` initial value (artist/title/album) is present in every provider
dict, `dict.update` is modelled as replacement by the provider dict. -/
structure SMResult where
  artist : Option PyStr
  title : Option PyStr
  album : Option PyStr
  year : Option PyStr
  genre : Option PyStr
  track_number : Option PyStr
  total_tracks : Option PyStr
  musicbrainz_recording_id : Option PyStr
  musicbrainz_release_id : Option PyStr
  musicbrainz_artist_id : Option PyStr
  cover_url : Option PyStr
  cover_data : Option PyStr
  additional_genres : List PyStr
  era : Option PyStr
  mood : Option PyStr
  style : Option PyStr
  similar_artists : Option PyStr
  instrumentation : Option PyStr
  energy_level : Option PyStr
  tempo_description : Option PyStr
  confidence : ℚ
  source : Option PyStr
deriving DecidableEq

/-- Python `a or b` on optional values (`none` models every falsy value). -/
def pyOr (a b : Option PyStr) : Option PyStr :=
  match a with
  | some x => some x
  | none => b

/-- Append the MusicBrainz genres (top 3) that are not already present
case-insensitively — the inner loop of `_combine_results`. -/
def addMbGenres (acc : List PyStr) : List PyStr → List PyStr
  | [] => acc
  | g :: gs =>
    if (acc.map pyLower).contains (pyLower g) then addMbGenres acc gs
    else addMbGenres (acc ++ [g]) gs

/-- The both-providers branch of `OnlineMetadataProvider._combine_results`. -/
def combineBoth (mb lf : SMResult) : SMResult :=
  let primary := if mb.confidence ≥ lf.confidence then mb else lf
  let primary_source := if mb.confidence ≥ lf.confidence then chars ("MusicBrainz") else chars ("Last.fm")
  let secondary_source := if mb.confidence ≥ lf.confidence then chars ("Last.fm") else chars ("MusicBrainz")
  let combined_genres := addMbGenres (lf.additional_genres.take 3) (mb.additional_genres.take 3)
  let base : SMResult :=
    if mb.confidence > 1/2 then
      { artist := pyOr mb.artist primary.artist
        title := pyOr mb.title primary.title
        album := pyOr mb.album primary.album
        year := pyOr mb.year primary.year
        track_number := pyOr mb.track_number primary.track_number
        total_tracks := pyOr mb.total_tracks primary.total_tracks
        musicbrainz_recording_id := mb.musicbrainz_recording_id
        musicbrainz_release_id := mb.musicbrainz_release_id
        musicbrainz_artist_id := mb.musicbrainz_artist_id
        cover_url := mb.cover_url
        cover_data := mb.cover_data
        genre := none, additional_genres := []
        era := mb.era, mood := mb.mood, style := mb.style
        similar_artists := mb.similar_artists, instrumentation := mb.instrumentation
        energy_level := mb.energy_level, tempo_description := mb.tempo_description
        confidence := 0, source := none }
    else
      { artist := primary.artist, title := primary.title, album := primary.album
        year := primary.year, track_number := primary.track_number
        total_tracks := primary.total_tracks
        musicbrainz_recording_id := none, musicbrainz_release_id := none
        musicbrainz_artist_id := none, cover_url := none, cover_data := none
        genre := none, additional_genres := []
        era := primary.era, mood := primary.mood, style := primary.style
        similar_artists := primary.similar_artists
        instrumentation := primary.instrumentation
        energy_level := primary.energy_level
        tempo_description := primary.tempo_description
        confidence := 0, source := none }
  { base with
    additional_genres := combined_genres.take 6
    genre := match combined_genres with
             | g :: _ => some g
             | [] => primary.genre
    confidence := max mb.confidence lf.confidence
    source :=
      if mb.confidence > 1/2 ∧ lf.confidence > 1/2
      then some (primary_source ++ chars (" + ") ++ secondary_source)
      else some primary_source }

/-- `OnlineMetadataProvider._combine_results(mb_result, lastfm_result)`. -/
def combine_results (mb lf : Option SMResult) : Option SMResult :=
  match mb, lf with
  | none, none => none
  | some m, none => some m
  | none, some l => some l
  | some m, some l => some (combineBoth m l)

/-- The `results` dict `search_metadata` initialises from the current tags. -/
def baseResults (current_artist current_title current_album : Option PyStr) : SMResult :=
  { artist := current_artist, title := current_title, album := current_album
    year := none, genre := none, track_number := none, total_tracks := none
    musicbrainz_recording_id := none, musicbrainz_release_id := none
    musicbrainz_artist_id := none, cover_url := none, cover_data := none
    additional_genres := []
    era := none, mood := none, style := none, similar_artists := none
    instrumentation := none, energy_level := none, tempo_description := none
    confidence := 0, source := none }

/-- The provider-call boundary: `_search_musicbrainz` / `_search_lastfm` wrap
their whole body in `try/except` and return `None` when the lookup raises, so
an exception never leaves the provider client. -/
def providerLookup (outcome : Except PyStr (Option SMResult)) : Option SMResult :=
  match outcome with
  | Except.ok r => r
  | Except.error _ => none

/-- `OnlineMetadataProvider.search_metadata` from the point where
`search_info` is available: query the providers, combine, and update the base
results with the combined dict when one exists. -/
def search_metadata (si : SearchInfo)
    (current_artist current_title current_album : Option PyStr)
    (mbOutcome : Except PyStr (Option SMResult))
    (lastfmEnabled : Bool)
    (lfOutcome : Except PyStr (Option SMResult)) : SMResult :=
  let results := baseResults current_artist current_title current_album
  if si.artist ≠ [] ∧ si.title ≠ [] then
    let mb_result := providerLookup mbOutcome
    let lastfm_result := if lastfmEnabled then providerLookup lfOutcome else none
    match combine_results mb_result lastfm_result with
    | some best => best
    | none => results
  else results

/-- `OnlineMetadataProvider._calculate_confidence` (the spec's `scoreMatch`).
`ratio` is the `difflib.SequenceMatcher(...).ratio()` oracle. -/
def calculate_confidence (ratio : PyStr → PyStr → ℚ) (si : SearchInfo)
    (found_artist found_title found_album : PyStr) : ℚ :=
  let scores : List ℚ :=
    (if si.artist ≠ [] ∧ found_artist ≠ [] then [ratio (pyLower si.artist) (pyLower found_artist)] else []) ++
    (if si.title ≠ [] ∧ found_title ≠ [] then [ratio (pyLower si.title) (pyLower found_title)] else []) ++
    (if si.album ≠ [] ∧ found_album ≠ [] then [ratio (pyLower si.album) (pyLower found_album)] else [])
  if scores ≠ [] then scores.sum / (scores.length : ℚ) else 0

end OnlineMetadata

/-! ## fallback_analysis.py -/

namespace FallbackAnalysis

/-- `re.sub(r'^\d+[\.\-\s]*', '', name)`: drop a leading digit run and the
following run of `.`/`-`/whitespace characters (both quantifiers are greedy
and their character classes are disjoint, so maximal runs are exact). -/
def stripLeadingTrackNum (s : PyStr) : PyStr :=
  match s with
  | c :: _ =>
    if isPyDigit c then
      (s.dropWhile isPyDigit).dropWhile (fun c2 => c2 = '.' || c2 = '-' || isPySpace c2)
    else s
  | [] => []

/-- Fuelled worker for `removeBracketed`: repeatedly delete the leftmost
`\s*OPEN.*?CLOSE\s*` match, resuming the scan after the deleted region, as
`re.sub` does. -/
def removeBracketedGo (o c : Char) : ℕ → PyStr → PyStr
  | 0, s => s
  | fuel + 1, s =>
    match findSubIdx s [o] with
    | none => s
    | some i =>
      let rest := s.drop (i + 1)
      match findSubIdx rest [c] with
      | none => s
      | some j =>
        let pre := s.take i
        let wsBefore := (pre.reverse.takeWhile isPySpace).length
        let after := (rest.drop (j + 1)).dropWhile isPySpace
        pre.take (i - wsBefore) ++ removeBracketedGo o c fuel after

/-- `re.sub(r'\s*\[.*?\]\s*', '', s)` (and the same for parentheses). -/
def removeBracketed (o c : Char) (s : PyStr) : PyStr :=
  removeBracketedGo o c (s.length + 1) s

/-- Worker replacing each maximal run of characters satisfying `p` by the
single character `r` (`re.sub(r'[_]+', ' ', s)` / `re.sub(r'\s+', ' ', s)`). -/
def squashRunGo (p : Char → Bool) (r : Char) : Bool → PyStr → PyStr
  | _, [] => []
  | inRun, c :: rest =>
    if p c then
      (if inRun then squashRunGo p r true rest else r :: squashRunGo p r true rest)
    else c :: squashRunGo p r false rest

/-- Replace each maximal run of characters satisfying `p` by `r`. -/
def squashRun (p : Char → Bool) (r : Char) (s : PyStr) : PyStr :=
  squashRunGo p r false s

/-- `FallbackAnalyzer._clean_name(name)`. -/
def clean_name (name : PyStr) : PyStr :=
  if name = [] then []
  else
    let n := stripLeadingTrackNum name
    let n := removeBracketed '[' ']' n
    let n := removeBracketed '(' ')' n
    let n := squashRun (fun c => c = '_') ' ' n
    let n := squashRun isPySpace ' ' n
    pyStrip n

/-- `re.match(r'^[A-Z]{2,4}-[A-Z]{2,4}$', name, re.IGNORECASE)`: 2–4 letters,
a hyphen, 2–4 letters, end of string. -/
def bandShape1 (name : PyStr) : Bool :=
  let r1 := name.takeWhile isAsciiAlpha
  match name.drop r1.length with
  | '-' :: rest2 =>
    let r2 := rest2.takeWhile isAsciiAlpha
    2 ≤ r1.length ∧ r1.length ≤ 4 ∧ 2 ≤ r2.length ∧ r2.length ≤ 4 ∧ rest2.drop r2.length = []
  | _ => false

/-- `re.match(r'^.+-\w{1,3}$', name, re.IGNORECASE)`: some k ∈ {1,2,3} word
characters at the end, preceded by a hyphen, preceded by a non-empty prefix. -/
def bandShape2 (name : PyStr) : Bool :=
  let rev := name.reverse
  (decide (3 ≤ name.length) ∧ (rev.take 1).all isWordChar ∧ rev.getD 1 ' ' = '-')
  ∨ (decide (4 ≤ name.length) ∧ (rev.take 2).all isWordChar ∧ rev.getD 2 ' ' = '-')
  ∨ (decide (5 ≤ name.length) ∧ (rev.take 3).all isWordChar ∧ rev.getD 3 ' ' = '-')

/-- `re.match(r'^\w{1,3}-.+$', name, re.IGNORECASE)`: k ∈ {1,2,3} word
characters, a hyphen, a non-empty rest. -/
def bandShape3 (name : PyStr) : Bool :=
  ((name.take 1).all isWordChar ∧ name.getD 1 ' ' = '-' ∧ 3 ≤ name.length)
  ∨ ((name.take 2).all isWordChar ∧ name.getD 2 ' ' = '-' ∧ 4 ≤ name.length)
  ∨ ((name.take 3).all isWordChar ∧ name.getD 3 ' ' = '-' ∧ 5 ≤ name.length)

/-- `FallbackAnalyzer._looks_like_band_with_dash(name)`. -/
def looks_like_band_with_dash (name : PyStr) : Bool :=
  (bandShape1 name ∨ bandShape2 name ∨ bandShape3 name) ∨
    [chars ("ac-dc"), chars ("dc-ac"), chars ("x-ray"), chars ("k-pop")].contains (pyLower name)

/-- The `nonsense_combinations` table of `_looks_like_nonsense`. -/
def nonsenseCombos : List (PyStr × PyStr) :=
  [(chars ("ohne"), chars ("id3")), (chars ("test"), chars ("mp3")),
   (chars ("audio"), chars ("file")), (chars ("track"), chars ("number")),
   (chars ("unknown"), chars ("title")), (chars ("noname"), chars ("mp3")),
   (chars ("untitled"), chars ("song"))]

/-- `FallbackAnalyzer._looks_like_nonsense(artist, title)`. -/
def looks_like_nonsense (artist title : PyStr) : Bool :=
  let a := pyStrip (pyLower artist)
  let t := pyStrip (pyLower title)
  nonsenseCombos.contains (a, t)
  ∨ a.length ≤ 2 ∨ t.length ≤ 2
  ∨ (a ≠ [] ∧ a.all isPyDigit) ∨ (t ≠ [] ∧ t.all isPyDigit)
  ∨ a = t

/-- A `\b` word boundary holds before the scan position. -/
def boundaryBefore (prev : Option Char) : Bool :=
  match prev with
  | none => true
  | some p => ¬ isWordChar p

/-- A `\b` word boundary holds at the start of the remaining input. -/
def boundaryAfterOk : PyStr → Bool
  | [] => true
  | c :: _ => ¬ isWordChar c

/-- `re.search(r'\b(19|20)\d{2}\b', s)`: a four-digit year with word
boundaries, anywhere in the string. -/
def hasYearAt : Option Char → PyStr → Bool
  | prev, c1 :: c2 :: c3 :: c4 :: rest =>
    (boundaryBefore prev ∧ ((c1 = '1' ∧ c2 = '9') ∨ (c1 = '2' ∧ c2 = '0')) ∧
      isPyDigit c3 ∧ isPyDigit c4 ∧ boundaryAfterOk rest)
    || hasYearAt (some c1) (c2 :: c3 :: c4 :: rest)
  | _, _ => false

/-- `re.search(r'\bWORD\b', s)` for a fixed word. -/
def scanWord (w : PyStr) : Option Char → PyStr → Bool
  | prev, s =>
    match s with
    | [] => false
    | c :: rest =>
      (boundaryBefore prev ∧ startsList s w ∧ boundaryAfterOk (s.drop w.length))
      || scanWord w (some c) rest

/-- `re.search(r'\bgreatest\s+hits\b', s)`: "greatest", at least one
whitespace character (the greedy run is exact since whitespace is not an `h`),
then "hits", with word boundaries around the whole. -/
def scanGreatestHits : Option Char → PyStr → Bool
  | prev, s =>
    match s with
    | [] => false
    | c :: rest =>
      (boundaryBefore prev ∧ startsList s (chars ("greatest")) ∧
        (let r2 := s.drop 8
         let ws := (r2.takeWhile isPySpace).length
         decide (1 ≤ ws) ∧ startsList (r2.drop ws) (chars ("hits")) ∧
           boundaryAfterOk (r2.drop (ws + 4))))
      || scanGreatestHits (some c) rest

/-- `re.search(r'\[.*\]', s)` (and the version with parentheses): an opening
bracket with some closing bracket anywhere after it. -/
def hasPairBrackets (o c : Char) (d : PyStr) : Bool :=
  match d.dropWhile (· ≠ o) with
  | [] => false
  | _ :: rest => rest.contains c

/-- `FallbackAnalyzer._looks_like_album(dirname)`. -/
def looks_like_album (dirname : PyStr) : Bool :=
  let d := pyLower dirname
  hasYearAt none d
  ∨ scanWord (chars ("album")) none d ∨ scanWord (chars ("ep")) none d
  ∨ scanWord (chars ("lp")) none d ∨ scanWord (chars ("single")) none d
  ∨ scanWord (chars ("compilation")) none d ∨ scanGreatestHits none d
  ∨ hasPairBrackets '[' ']' d ∨ hasPairBrackets '(' ')' d

/-- The `generic_names` table of `_looks_like_generic_folder`. -/
def genericNames : List PyStr :=
  [chars ("music"), chars ("mp3"), chars ("audio"), chars ("songs"), chars ("tracks"),
   chars ("downloads"), chars ("new folder"), chars ("untitled"), chars ("misc"),
   chars ("various"), chars ("unknown"), chars ("mixed"), chars ("temp"), chars ("tmp"),
   chars ("test")]

/-- `FallbackAnalyzer._looks_like_generic_folder(dirname)`. -/
def looks_like_generic_folder (dirname : PyStr) : Bool :=
  genericNames.contains (pyStrip (pyLower dirname))

/-- Strip a fixed case-insensitive suffix (`\.mp3$` under `re.IGNORECASE`). -/
def stripCiSuffix (suffix s : PyStr) : Option PyStr :=
  if s.length ≥ suffix.length ∧ pyLower (s.drop (s.length - suffix.length)) = pyLower suffix
  then some (s.take (s.length - suffix.length)) else none

/-- Match `\s*-\s*(.+?)\.mp3$` against the rest of a filename, returning the
captured group. The first `\s*` is exact as a maximal run (whitespace is
never `-`); for the second one, backtracking reduces the greedy run only when
the capture group would otherwise be empty. -/
def tailDashMp3 (rest : PyStr) : Option PyStr :=
  match rest.dropWhile isPySpace with
  | '-' :: r2 =>
    (match stripCiSuffix (chars (".mp3")) r2 with
     | some body =>
       if body = [] then none
       else some (body.drop (min (body.takeWhile isPySpace).length (body.length - 1)))
     | none => none)
  | _ => none

/-- Lazy scan for `^(.+?)\s*-\s*(.+?)\.mp3$`: grow the first capture group one
character at a time (shortest first, as the lazy quantifier does) until the
tail matches. -/
def lazyScanDash : PyStr → PyStr → Option (PyStr × PyStr)
  | _, [] => none
  | g1rev, c :: rest =>
    match tailDashMp3 rest with
    | some g2 => some ((c :: g1rev).reverse, g2)
    | none => lazyScanDash (c :: g1rev) rest

/-- Filename pattern `r'^(.+?)\s*-\s*(.+?)\.mp3$'`. -/
def matchPattern2 (fn : PyStr) : Option (PyStr × PyStr) := lazyScanDash [] fn

/-- Separator class `[\.\-\s]`. -/
def isSepClass (c : Char) : Bool := c = '.' || c = '-' || isPySpace c

/-- Backtracking over the greedy `[\.\-\s]+` run (longest first, down to
length 1), then the lazy dash scan. -/
def sepBacktrack (r : PyStr) : ℕ → Option (PyStr × PyStr)
  | 0 => none
  | k + 1 =>
    match lazyScanDash [] (r.drop (k + 1)) with
    | some res => some res
    | none => sepBacktrack r k

/-- Filename pattern `r'^\d+[\.\-\s]+(.+?)\s*-\s*(.+?)\.mp3$'` (a shorter
leading digit run cannot help, since the separator class excludes digits). -/
def matchPattern1 (fn : PyStr) : Option (PyStr × PyStr) :=
  match fn with
  | c :: _ =>
    if isPyDigit c then
      let r := fn.dropWhile isPyDigit
      sepBacktrack r (r.takeWhile isSepClass).length
    else none
  | [] => none

/-- Greedy split of `body` as `(.+)\s+(\w+)`: try the longest first group
first; after it, the whitespace run is maximal and the rest must be word
characters only. -/
def p3SplitGo (body : PyStr) : ℕ → Option (PyStr × PyStr)
  | 0 => none
  | k + 1 =>
    let g1 := body.take (k + 1)
    let rest := body.drop (k + 1)
    let ws := (rest.takeWhile isPySpace).length
    let g2 := rest.drop ws
    if 1 ≤ ws ∧ g2 ≠ [] ∧ g2.all isWordChar then some (g1, g2) else p3SplitGo body k

/-- Filename pattern `r'^[Tt]rack\d+\s+(.+)\s+(\w+)\.mp3$'` under
`re.IGNORECASE`. The `\s+` after the digits is modelled as its maximal run. -/
def matchPattern3 (fn : PyStr) : Option (PyStr × PyStr) :=
  if startsList (pyLower fn) (chars ("track")) then
    let r := fn.drop 5
    let digits := r.takeWhile isPyDigit
    if digits = [] then none
    else
      let r2 := r.drop digits.length
      let ws := (r2.takeWhile isPySpace).length
      if ws = 0 then none
      else
        match stripCiSuffix (chars (".mp3")) (r2.drop ws) with
        | some body => p3SplitGo body (body.length - 2)
        | none => none
  else none

/-- Lazy scan for `^(.+?)_(.+?)\.mp3$`: at each underscore with a non-empty
prefix, the tail must be a non-empty capture followed by `.mp3`; otherwise the
underscore joins the first group and the scan continues. -/
def p4Go : PyStr → PyStr → Option (PyStr × PyStr)
  | _, [] => none
  | g1rev, c :: rest2 =>
    if c = '_' ∧ g1rev ≠ [] then
      match stripCiSuffix (chars (".mp3")) rest2 with
      | some body => if body ≠ [] then some (g1rev.reverse, body) else p4Go (c :: g1rev) rest2
      | none => p4Go (c :: g1rev) rest2
    else p4Go (c :: g1rev) rest2

/-- Filename pattern `r'^(.+?)_(.+?)\.mp3$'`. -/
def matchPattern4 (fn : PyStr) : Option (PyStr × PyStr) := p4Go [] fn

/-- `FallbackAnalyzer._smart_split_artist_title(filename)`. -/
def smart_split_artist_title (filename : PyStr) : PyStr × PyStr :=
  let filename_clean := replaceAll (chars (".mp3")) [] filename
  let filename_clean := stripLeadingTrackNum filename_clean
  if hasSub filename_clean (chars (" - ")) then
    match splitSep (chars (" - ")) filename_clean with
    | [a, b] =>
      if looks_like_band_with_dash a then (clean_name a, clean_name b)
      else (clean_name a, clean_name b)
    | a :: b :: rest =>
      let first_two := a ++ chars (" - ") ++ b
      if looks_like_band_with_dash first_two then
        (clean_name first_two, clean_name (joinSep (chars (" - ")) rest))
      else (clean_name a, clean_name (joinSep (chars (" - ")) (b :: rest)))
    | _ => ([], [])
  else ([], [])

/-- Result dict of `_analyze_filename`. -/
structure FilenameResult where
  artist : Option PyStr
  title : Option PyStr
  confidence : ℚ
deriving DecidableEq

/-- The `self.filename_patterns` list, in source order. -/
def filenamePatterns : List (PyStr → Option (PyStr × PyStr)) :=
  [matchPattern1, matchPattern2, matchPattern3, matchPattern4]

/-- The pattern loop of `_analyze_filename`: the first matching pattern whose
extracted artist/title pass validation wins; a match failing validation falls
through to the next pattern. -/
def analyzeFilenameGo (filename : PyStr) :
    List (PyStr → Option (PyStr × PyStr)) → FilenameResult
  | [] => ⟨none, none, 0⟩
  | m :: ms =>
    match m filename with
    | none => analyzeFilenameGo filename ms
    | some (g1, g2) =>
      let artist_raw := clean_name g1
      let title_raw := clean_name g2
      let st :=
        if hasSub filename (chars (" - ")) ∧ ¬ looks_like_band_with_dash artist_raw
        then (artist_raw, title_raw)
        else
          let sp := smart_split_artist_title filename
          if sp.1 = [] ∨ sp.2 = [] then (artist_raw, title_raw) else sp
      if st.1 ≠ [] ∧ st.2 ≠ [] ∧ st.1.length > 1 ∧ st.2.length > 1 ∧
          ¬ looks_like_nonsense st.1 st.2
      then ⟨some st.1, some st.2, if hasSub filename (chars (" - ")) then 4/5 else 3/5⟩
      else analyzeFilenameGo filename ms

/-- `FallbackAnalyzer._analyze_filename(filename)`. -/
def analyze_filename (filename : PyStr) : FilenameResult :=
  analyzeFilenameGo filename filenamePatterns

/-- Result dict of `_analyze_directory_structure`. -/
structure DirResult where
  artist : Option PyStr
  album : Option PyStr
  title : Option PyStr
  confidence : ℚ
deriving DecidableEq

/-- `FallbackAnalyzer._analyze_directory_structure(file_path)`. The branch
structure mirrors the source exactly: the two-level check is the outer `if`,
and the later `elif` branches are reachable only when the parent or
grandparent component is empty. -/
def analyze_directory_structure (file_path : PyStr) : DirResult :=
  let path_parts := splitSep (chars ("/")) file_path
  if path_parts.length ≥ 3 then
    let parent_dir := path_parts.getD (path_parts.length - 2) []
    let grandparent_dir := path_parts.getD (path_parts.length - 3) []
    let great_grandparent_dir : Option PyStr :=
      if path_parts.length ≥ 4 then some (path_parts.getD (path_parts.length - 4) []) else none
    if parent_dir ≠ [] ∧ grandparent_dir ≠ [] then
      (if looks_like_album parent_dir ∧ ¬ looks_like_generic_folder grandparent_dir then
        ⟨some (clean_name grandparent_dir), some (clean_name parent_dir), none, 7/10⟩
      else ⟨none, none, none, 0⟩)
    else if parent_dir ≠ [] ∧ hasSub parent_dir (chars (" - ")) then
      (match splitOnce (chars (" - ")) parent_dir with
       | (p1, some p2) => ⟨some (clean_name p1), some (clean_name p2), none, 4/5⟩
       | (_, none) => ⟨none, none, none, 0⟩)
    else if optTruthy great_grandparent_dir ∧ parent_dir ≠ [] ∧ grandparent_dir ≠ [] then
      (if looks_like_generic_folder (great_grandparent_dir.getD []) ∧
          ¬ looks_like_generic_folder grandparent_dir ∧ looks_like_album parent_dir then
        ⟨some (clean_name grandparent_dir), some (clean_name parent_dir), none, 3/5⟩
      else ⟨none, none, none, 0⟩)
    else if parent_dir ≠ [] ∧ ¬ looks_like_generic_folder parent_dir then
      ⟨none, some (clean_name parent_dir), none, 2/5⟩
    else ⟨none, none, none, 0⟩
  else ⟨none, none, none, 0⟩

/-- Result dict of `analyze_path_structure` (the `method` key is the constant
`'path_analysis'` and is omitted). -/
structure PathResult where
  artist : Option PyStr
  album : Option PyStr
  title : Option PyStr
  confidence : ℚ
deriving DecidableEq

/-- `pathlib.Path(p).name` for a file path: the component after the last
slash. -/
def basename (p : PyStr) : PyStr :=
  (splitSep (chars ("/")) p).getLastD p

/-- One key's treatment in `_clean_extracted_data`: truthy values are
re-cleaned and kept only when longer than one character. -/
def clean_file_field (o : Option PyStr) : Option PyStr :=
  match o with
  | some v =>
    if v ≠ [] then (let c := clean_name v; if c.length > 1 then some c else none)
    else some v
  | none => none

/-- `FallbackAnalyzer.analyze_path_structure(file_path)`. -/
def analyze_path_structure (file_path : PyStr) : PathResult :=
  let normalized_path := file_path.map (fun c => if c = '\\' then '/' else c)
  let directory_info := analyze_directory_structure normalized_path
  let result : PathResult := ⟨none, none, none, 0⟩
  let result :=
    if directory_info.confidence > 0 then
      (⟨directory_info.artist, directory_info.album, directory_info.title,
        directory_info.confidence⟩ : PathResult)
    else result
  let filename_info := analyze_filename (basename file_path)
  let result :=
    if filename_info.confidence > 0 then
      { result with
        artist :=
          if ¬ optTruthy result.artist ∧ optTruthy filename_info.artist
          then filename_info.artist else result.artist
        title :=
          if ¬ optTruthy result.title ∧ optTruthy filename_info.title
          then filename_info.title else result.title
        confidence :=
          if filename_info.confidence > result.confidence
          then filename_info.confidence else result.confidence }
    else result
  ⟨clean_file_field result.artist, clean_file_field result.album,
   clean_file_field result.title, result.confidence⟩

/-- A suggestion dict produced by one stage of `get_fallback_suggestions`
(only the fields the orchestrator reads are modelled). `pathR` below carries
the result of `analyze_path_structure`; the other stages involve file and
network I/O and are supplied as oracles; `none` models a stage that raised. -/
structure StageResult where
  artist : Option PyStr
  title : Option PyStr
  album : Option PyStr
  confidence : ℚ
  method : PyStr
deriving DecidableEq

/-- Append a stage result to the suggestion list when the stage did not raise
and its confidence is positive. -/
def addStage (l : List StageResult) (o : Option StageResult) : List StageResult :=
  match o with
  | some r => if r.confidence > 0 then l ++ [r] else l
  | none => l

/-- `max(s['confidence'] for s in suggestions)` (callers guarantee the list is
non-empty). -/
def maxStageConf : List StageResult → ℚ
  | [] => 0
  | r :: rs => rs.foldl (fun m x => max m x.confidence) r.confidence

/-- Stable insertion for the confidence-descending suggestion sort. -/
def insertStageDesc (x : StageResult) : List StageResult → List StageResult
  | [] => [x]
  | y :: ys => if x.confidence ≤ y.confidence then y :: insertStageDesc x ys else x :: y :: ys

/-- `suggestions.sort(key=lambda x: x['confidence'], reverse=True)`. -/
def sortStagesDesc (l : List StageResult) : List StageResult :=
  l.foldl (fun acc x => insertStageDesc x acc) []

/-- `FallbackAnalyzer.get_fallback_suggestions` over the outcomes of its four
stages (path analysis, enhanced filename analysis, audio-properties analysis,
audio fingerprinting). Returns the sorted suggestion list and whether the
fingerprinting stage was invoked. -/
def get_fallback_suggestions
    (pathR enhancedR audioR fingerprintR : Option StageResult) :
    List StageResult × Bool :=
  let suggestions := addStage (addStage (addStage [] pathR) enhancedR) audioR
  let step2 :=
    if suggestions ≠ [] then
      (let best_confidence := maxStageConf suggestions
       if best_confidence < 3/5 then (addStage suggestions fingerprintR, true)
       else (suggestions, false))
    else (addStage suggestions fingerprintR, true)
  (sortStagesDesc step2.1, step2.2)

end FallbackAnalysis

/-! ## core.py -/

namespace Core

/-- The fields of an `online_meta` dict that the result-processing block of
`get_metadata_for_files` reads (whether it came from `search_metadata` or
from a fallback suggestion). -/
structure OnlineMeta where
  artist : Option PyStr
  title : Option PyStr
  album : Option PyStr
  genre : Option PyStr
  cover_url : Option PyStr
  confidence : ℚ
deriving DecidableEq

/-- A file's dict as carried through `get_metadata_for_files`: its current
tags plus the suggested fields the processing block writes. -/
structure FileData where
  filename : PyStr
  current_artist : Option PyStr
  current_title : Option PyStr
  current_album : Option PyStr
  suggested_artist : Option PyStr
  suggested_title : Option PyStr
  suggested_album : Option PyStr
  suggested_genre : Option PyStr
  suggested_cover_url : Option PyStr
  online_metadata : Option OnlineMeta
deriving DecidableEq

/-- The result-processing block of `MusicTagger.get_metadata_for_files`
(core.py lines 220–255) for one file: populate the suggested fields exactly
when a result exists with confidence above 0.3, otherwise reset them all to
`None`. The surrounding `try/except` appends the file either way, so the
block is a total function of the chosen result. -/
def processMetadataResult (fd : FileData) (online_meta : Option OnlineMeta) : FileData :=
  if (match online_meta with
      | some m => decide (m.confidence > 3/10)
      | none => false) = true then
    match online_meta with
    | some m =>
      { fd with
        suggested_artist := m.artist
        suggested_title := m.title
        suggested_album := m.album
        suggested_genre := m.genre
        suggested_cover_url := m.cover_url
        online_metadata := some m }
    | none => fd
  else
    { fd with
      suggested_artist := none
      suggested_title := none
      suggested_album := none
      suggested_genre := none
      suggested_cover_url := none
      online_metadata := none }

/-- `MusicTagger.get_metadata_for_files`, with the per-file metadata
resolution (online provider plus fallback chain) supplied as the already
chosen `Option OnlineMeta` for each file. -/
def get_metadata_for_files (files_data : List (FileData × Option OnlineMeta)) :
    List FileData :=
  files_data.map (fun p => processMetadataResult p.1 p.2)

end Core

/-! ## Concrete inputs used by counterexamples and witnesses -/

namespace AlbumRecognition

/-- A Discogs-sourced candidate with external release id `7`, confidence 0.9. -/
def c9CandA : AlbumCandidate :=
  ⟨chars ("X"), chars ("a"), none, 1, [], 9/10, chars ("discogs"), chars ("7")⟩

/-- A second Discogs-sourced candidate with the same external release id `7`,
confidence 0.8. -/
def c9CandB : AlbumCandidate :=
  ⟨chars ("Y"), chars ("a"), none, 1, [], 4/5, chars ("discogs"), chars ("7")⟩

/-- An environment in which MusicBrainz finds nothing and the Discogs search
returns the same release through two result entries. -/
def c9Env : RecognizeEnv where
  mbArtistSearch := []
  mbTrackSearch := fun _ => []
  mbEval := fun _ => none
  hasDiscogsClient := true
  discogsSearch := [⟨false, some (chars ("X"))⟩, ⟨false, some (chars ("Y"))⟩]
  discogsEval := fun r => if r.title = some (chars ("X")) then some c9CandA else some c9CandB

/-- A one-file input with both title and artist set. -/
def c9Files : List FileInfo := [⟨some (chars ("t")), some (chars ("a"))⟩]

end AlbumRecognition

/-! ## Helper lemmas -/

/-- A conditional-increment `foldl` computes `countP`. -/
theorem foldl_count_eq {β : Type} (p : β → Bool) (l : List β) (n : ℕ) :
    l.foldl (fun n x => if p x then n + 1 else n) n = n + l.countP p := by
  induction l generalizing n with
  | nil => simp
  | cons a t ih =>
    by_cases h : p a = true
    · simp [h, ih, List.countP_cons]
      omega
    · simp [h, ih, List.countP_cons]

/-! ## Claim theorems -/

/-- **C10**: `recognize_album` applied to an empty `files_info` list returns
the empty candidate list with confidence 0.0 immediately: the cache is neither
consulted nor written, and no provider is queried. -/
theorem C10_empty_input (env : AlbumRecognition.RecognizeEnv)
    (cache : AlbumRecognition.Cache) :
    AlbumRecognition.recognize_album env cache [] =
      { result := ([], 0), cacheOut := cache, cacheLookedUp := false,
        mbQueried := false, discogsQueried := false } := rfl

/-- **C5**: the code does NOT yield artist "AC-DC" / title "Back In Black" for
the filename "AC-DC - Back In Black.mp3" (nor "AC" / "DC - Back In Black"):
pattern 2 splits at the first hyphen, the band check sees only the fragment
"AC" (which carries no dash), the resulting pair is rejected as nonsense
because the artist has only two characters, no later-hyphen retry happens, and
path analysis ends with no artist, no title and confidence 0.0. -/
theorem C5_analyze_path_acdc :
    FallbackAnalysis.analyze_path_structure (chars ("AC-DC - Back In Black.mp3")) =
      ⟨none, none, none, 0⟩ ∧
    FallbackAnalysis.matchPattern2 (chars ("AC-DC - Back In Black.mp3")) =
      some (chars ("AC"), chars ("DC - Back In Black")) ∧
    FallbackAnalysis.looks_like_band_with_dash (chars ("AC")) = false ∧
    FallbackAnalysis.looks_like_nonsense (chars ("AC")) (chars ("DC - Back In Black")) = true := by
  refine ⟨?_, by decide, by decide, by decide⟩
  decide

/-- **C6 counterexample**: the parent directory name "Some - Thing" contains
" - ", yet the directory rules yield confidence 0.0, not 0.8: with a non-empty
grandparent component the code only ever tries the two-level artist/album rule,
and "Some - Thing" does not look like an album. -/
theorem C6_counterexample :
    hasSub (chars ("Some - Thing")) (chars (" - ")) = true ∧
    FallbackAnalysis.analyze_directory_structure (chars ("x/Some - Thing/song.mp3")) =
      ⟨none, none, none, 0⟩ ∧
    (0 : ℚ) ≠ 4/5 := ⟨by decide, by decide, by norm_num⟩

/-- **C1 counterexample**: for file titles ["a", "bcdef"] against the single
album track "a", the code returns 0.95: the exact match "a" is counted again
by the fuzzy loop (1·1.0 + 1·0.7)/2 + 0.1, while the claim's formula — which
does not count an exact match as an additional fuzzy match — gives
(1·1.0 + 0·0.7)/2 + 0.1 = 0.6. -/
theorem C1_counterexample :
    AlbumRecognition.calculate_confidence
        [⟨some (chars ("a")), none⟩, ⟨some (chars ("bcdef")), none⟩]
        [⟨some (chars ("a"))⟩] = 19/20 ∧
    AlbumRecognition.scoreAlbumMatchClaim
        [⟨some (chars ("a")), none⟩, ⟨some (chars ("bcdef")), none⟩]
        [⟨some (chars ("a"))⟩] = 3/5 ∧
    (19/20 : ℚ) ≠ 3/5 := by
  refine ⟨?_, ?_, by norm_num⟩
  · with_unfolding_all rfl
  · with_unfolding_all rfl

/-- **C1 amended**: for non-empty (normalised) file-title and album-track
lists, `scoreAlbumMatch` is `(exact·1.0 + fuzzyAll·0.7)/totalFiles`, plus 0.1
exactly when `|albumTrackCount − fileCount| ≤ 2`, clamped to 1.0 — where
`fuzzyAll` counts every file title with a fuzzy match against some album
title, INCLUDING the titles already counted as exact matches (an exact match
contributes 1.0 + 0.7). -/
theorem C1_amended (files_info : List AlbumRecognition.FileInfo)
    (album_tracks : List AlbumRecognition.TrackInfo)
    (hf : files_info.filter (fun f => optTruthy f.title) ≠ [])
    (ht : album_tracks ≠ []) :
    AlbumRecognition.calculate_confidence files_info album_tracks =
      (let file_titles := (files_info.filter (fun f => optTruthy f.title)).map
          (fun f => pyStrip (pyLower (f.title.getD [])))
       let album_titles := album_tracks.map (fun t => pyStrip (pyLower (t.title.getD [])))
       let exactMatches : ℕ := file_titles.countP (fun ft => album_titles.contains ft)
       let fuzzyAll : ℕ :=
         file_titles.countP
           (fun ft => album_titles.any (fun a2 => AlbumRecognition.claimFuzzyPred ft a2))
       let base := ((exactMatches : ℚ) * 1 + (fuzzyAll : ℚ) * (7/10)) / (file_titles.length : ℚ)
       min (if |(album_tracks.length : ℤ) - (file_titles.length : ℤ)| ≤ 2
            then base + 1/10 else base) 1) := by
  have h0 : files_info ≠ [] := by
    intro h
    exact hf (by simp [h])
  have h1 : ¬ (files_info = [] ∨ album_tracks = []) := by
    simp [h0, ht]
  have h2 : ¬ ((files_info.filter (fun f => optTruthy f.title)).map
      (fun f => pyStrip (pyLower (f.title.getD []))) = [] ∨
      album_tracks.map (fun t => pyStrip (pyLower (t.title.getD []))) = []) := by
    simp [hf, ht]
  simp only [AlbumRecognition.calculate_confidence, if_neg h1, if_neg h2,
    AlbumRecognition.claimFuzzyPred]
  rw [foldl_count_eq, foldl_count_eq]
  simp only [Nat.zero_add]

/-- Membership in a suggestion list survives a further `addStage`. -/
theorem mem_addStage_of_mem {l : List FallbackAnalysis.StageResult}
    {o : Option FallbackAnalysis.StageResult} {r : FallbackAnalysis.StageResult}
    (h : r ∈ l) : r ∈ FallbackAnalysis.addStage l o := by
  cases o with
  | none => exact h
  | some s =>
    simp only [FallbackAnalysis.addStage]
    split
    · exact List.mem_append_left _ h
    · exact h

/-- A non-raising stage with positive confidence lands in the suggestion
list. -/
theorem mem_addStage_self {l : List FallbackAnalysis.StageResult}
    {r : FallbackAnalysis.StageResult} (hc : r.confidence > 0) :
    r ∈ FallbackAnalysis.addStage l (some r) := by
  simp only [FallbackAnalysis.addStage, if_pos hc]
  exact List.mem_append_right _ (List.mem_singleton.mpr rfl)

/-- The running maximum of a confidence fold dominates its seed. -/
theorem le_foldl_max_init (l : List FallbackAnalysis.StageResult) (a : ℚ) :
    a ≤ l.foldl (fun m x => max m x.confidence) a := by
  induction l generalizing a with
  | nil => exact le_refl a
  | cons y t ih => exact le_trans (le_max_left _ _) (ih (max a y.confidence))

/-- The running maximum of a confidence fold dominates every member. -/
theorem le_foldl_max_mem {l : List FallbackAnalysis.StageResult}
    {r : FallbackAnalysis.StageResult} (a : ℚ) (h : r ∈ l) :
    r.confidence ≤ l.foldl (fun m x => max m x.confidence) a := by
  induction l generalizing a with
  | nil => cases h
  | cons y t ih =>
    rcases List.mem_cons.mp h with h1 | h2
    · subst h1
      exact le_trans (le_max_right _ _) (le_foldl_max_init t _)
    · exact ih _ h2

/-- `maxStageConf` dominates every member of the list. -/
theorem maxStageConf_ge {l : List FallbackAnalysis.StageResult}
    {r : FallbackAnalysis.StageResult} (h : r ∈ l) :
    r.confidence ≤ FallbackAnalysis.maxStageConf l := by
  cases l with
  | nil => cases h
  | cons y t =>
    rcases List.mem_cons.mp h with h1 | h2
    · subst h1
      exact le_foldl_max_init t _
    · exact le_foldl_max_mem _ h2

/-- **C2**: whenever one of the three heuristic stages (path analysis,
enhanced filename analysis, audio-properties analysis) yields a suggestion of
confidence at least 0.6, the fallback orchestrator does not invoke the
audio-fingerprinting stage. -/
theorem C2_stage_short_circuit
    (pathR enhancedR audioR fingerprintR : Option FallbackAnalysis.StageResult)
    (h : ∃ r : FallbackAnalysis.StageResult,
      (pathR = some r ∨ enhancedR = some r ∨ audioR = some r) ∧ 3/5 ≤ r.confidence) :
    (FallbackAnalysis.get_fallback_suggestions pathR enhancedR audioR fingerprintR).2
      = false := by
  obtain ⟨r, hmem, hconf⟩ := h
  have hpos : r.confidence > 0 := lt_of_lt_of_le (by norm_num) hconf
  have hr : r ∈ FallbackAnalysis.addStage
      (FallbackAnalysis.addStage (FallbackAnalysis.addStage [] pathR) enhancedR) audioR := by
    rcases hmem with h1 | h2 | h3
    · subst h1
      exact mem_addStage_of_mem (mem_addStage_of_mem (mem_addStage_self hpos))
    · subst h2
      exact mem_addStage_of_mem (mem_addStage_self hpos)
    · subst h3
      exact mem_addStage_self hpos
  have hne : FallbackAnalysis.addStage
      (FallbackAnalysis.addStage (FallbackAnalysis.addStage [] pathR) enhancedR) audioR ≠ [] :=
    List.ne_nil_of_mem hr
  have hbest : ¬ FallbackAnalysis.maxStageConf
      (FallbackAnalysis.addStage
        (FallbackAnalysis.addStage (FallbackAnalysis.addStage [] pathR) enhancedR) audioR)
        < 3/5 :=
    not_lt.mpr (le_trans hconf (maxStageConf_ge hr))
  simp only [FallbackAnalysis.get_fallback_suggestions, if_pos hne, if_neg hbest]

/-- **C3**: when the structured-database (MusicBrainz) lookup raises, the
exception is absorbed inside the provider client — `search_metadata` behaves
exactly as if MusicBrainz had returned no candidates, and returns the
community-tag (Last.fm) candidates unchanged. -/
theorem C3_provider_failure_isolation (si : OnlineMetadata.SearchInfo)
    (ca ct cal : Option PyStr) (e : PyStr) (lfres : Option OnlineMetadata.SMResult)
    (ha : si.artist ≠ []) (htl : si.title ≠ []) :
    OnlineMetadata.search_metadata si ca ct cal (Except.error e) true (Except.ok lfres)
      = OnlineMetadata.search_metadata si ca ct cal (Except.ok none) true (Except.ok lfres)
    ∧ ∀ r, lfres = some r →
        OnlineMetadata.search_metadata si ca ct cal (Except.error e) true (Except.ok lfres)
          = r := by
  constructor
  · rfl
  · intro r hrw
    subst hrw
    simp only [OnlineMetadata.search_metadata, if_pos (And.intro ha htl)]
    rfl

/-- **C4**: for one processed file, the suggested fields and the attached
metadata are populated from the chosen result exactly when its confidence
exceeds 0.3; with no result, or a result at or below 0.3, every suggested
field is `None` and the file record is still produced (no exception path). -/
theorem C4_acceptance_threshold (fd : Core.FileData) (m : Core.OnlineMeta) :
    (((Core.processMetadataResult fd (some m)).suggested_artist = m.artist ∧
      (Core.processMetadataResult fd (some m)).suggested_title = m.title ∧
      (Core.processMetadataResult fd (some m)).suggested_album = m.album ∧
      (Core.processMetadataResult fd (some m)).suggested_genre = m.genre ∧
      (Core.processMetadataResult fd (some m)).suggested_cover_url = m.cover_url ∧
      (Core.processMetadataResult fd (some m)).online_metadata = some m)
     ↔ m.confidence > 3/10) ∧
    (m.confidence ≤ 3/10 →
      Core.processMetadataResult fd (some m) =
        { fd with suggested_artist := none, suggested_title := none,
                  suggested_album := none, suggested_genre := none,
                  suggested_cover_url := none, online_metadata := none }) ∧
    Core.processMetadataResult fd none =
      { fd with suggested_artist := none, suggested_title := none,
                suggested_album := none, suggested_genre := none,
                suggested_cover_url := none, online_metadata := none } := by
  by_cases h : m.confidence > 3/10
  · refine ⟨?_, fun hle => absurd h (not_lt.mpr hle), by rfl⟩
    simp [Core.processMetadataResult, h]
  · refine ⟨?_, fun _ => by simp [Core.processMetadataResult, h], by rfl⟩
    simp [Core.processMetadataResult, h]

/-- **C7**: when both providers return a result, the combined result's
confidence is the maximum of the two, and its source label is
"primary + secondary" exactly when both confidences exceed 0.5, else the
primary (higher-confidence, MusicBrainz on ties) provider's name. -/
theorem C7_combined_confidence_and_source (m l : OnlineMetadata.SMResult) :
    OnlineMetadata.combine_results (some m) (some l)
      = some (OnlineMetadata.combineBoth m l) ∧
    (OnlineMetadata.combineBoth m l).confidence = max m.confidence l.confidence ∧
    (OnlineMetadata.combineBoth m l).source =
      (if m.confidence > 1/2 ∧ l.confidence > 1/2 then
        some (if m.confidence ≥ l.confidence then chars ("MusicBrainz + Last.fm")
              else chars ("Last.fm + MusicBrainz"))
       else some (if m.confidence ≥ l.confidence then chars ("MusicBrainz")
                  else chars ("Last.fm"))) := by
  refine ⟨rfl, rfl, ?_⟩
  unfold OnlineMetadata.combineBoth
  dsimp only
  split_ifs <;> rfl

/-- Elements of a concatenation of three conditional singleton score lists all
satisfy the ratio bounds. -/
theorem scores_mem_bounds (ratio : PyStr → PyStr → ℚ)
    (hr : ∀ a b, 0 ≤ ratio a b ∧ ratio a b ≤ 1)
    (c1 c2 c3 : Prop) [Decidable c1] [Decidable c2] [Decidable c3]
    (a1 b1 a2 b2 a3 b3 : PyStr) (x : ℚ)
    (hx : x ∈ (if c1 then [ratio a1 b1] else []) ++
      (if c2 then [ratio a2 b2] else []) ++ (if c3 then [ratio a3 b3] else [])) :
    0 ≤ x ∧ x ≤ 1 := by
  rcases List.mem_append.mp hx with h12 | h3
  · rcases List.mem_append.mp h12 with h1 | h2
    · split at h1
      · rw [List.mem_singleton.mp h1]
        exact hr a1 b1
      · cases h1
    · split at h2
      · rw [List.mem_singleton.mp h2]
        exact hr a2 b2
      · cases h2
  · split at h3
    · rw [List.mem_singleton.mp h3]
      exact hr a3 b3
    · cases h3

/-- The mean of a list of values in [0, 1] (0 for the empty list) is in
[0, 1]. -/
theorem avgBounds (l : List ℚ) (h : ∀ x ∈ l, 0 ≤ x ∧ x ≤ 1) :
    0 ≤ (if l ≠ [] then l.sum / (l.length : ℚ) else 0) ∧
      (if l ≠ [] then l.sum / (l.length : ℚ) else 0) ≤ 1 := by
  split_ifs with hne
  · have hlen : 0 < (l.length : ℚ) := by exact_mod_cast List.length_pos.mpr hne
    constructor
    · exact div_nonneg (List.sum_nonneg fun x hx => (h x hx).1) hlen.le
    · rw [div_le_one hlen]
      calc l.sum ≤ l.length • (1 : ℚ) := List.sum_le_card_nsmul l 1 fun x hx => (h x hx).2
        _ = (l.length : ℚ) := by simp
  · norm_num

/-- **C8**: the per-track similarity score (`scoreMatch`, online_metadata's
`_calculate_confidence`, given that the `SequenceMatcher.ratio` oracle obeys
its 0..1 contract) and the album score (`scoreAlbumMatch`, album_recognition's
`_calculate_confidence`) always lie in [0, 1]. -/
theorem C8_confidence_bounds
    (ratio : PyStr → PyStr → ℚ) (hr : ∀ a b, 0 ≤ ratio a b ∧ ratio a b ≤ 1)
    (si : OnlineMetadata.SearchInfo) (fa ft fal : PyStr)
    (files_info : List AlbumRecognition.FileInfo)
    (album_tracks : List AlbumRecognition.TrackInfo) :
    (0 ≤ OnlineMetadata.calculate_confidence ratio si fa ft fal ∧
      OnlineMetadata.calculate_confidence ratio si fa ft fal ≤ 1) ∧
    (0 ≤ AlbumRecognition.calculate_confidence files_info album_tracks ∧
      AlbumRecognition.calculate_confidence files_info album_tracks ≤ 1) := by
  constructor
  · simp only [OnlineMetadata.calculate_confidence]
    exact avgBounds _ (fun x hx => scores_mem_bounds ratio hr _ _ _ _ _ _ _ _ _ x hx)
  · simp only [AlbumRecognition.calculate_confidence]
    split_ifs with h1 h2 h3
    · norm_num
    · norm_num
    · refine ⟨le_min ?_ (by norm_num), min_le_right _ _⟩
      positivity
    · refine ⟨le_min ?_ (by norm_num), min_le_right _ _⟩
      positivity

/-- One MusicBrainz loop step preserves the dedup invariant: candidate ids are
distinct, and every collected id is among the processed ids. -/
theorem mbStep_inv (evalRel : AlbumRecognition.MBRelease → Option AlbumRecognition.AlbumCandidate)
    (hev : ∀ r c, evalRel r = some c → c.external_id = r.id)
    (st : List PyStr × List AlbumRecognition.AlbumCandidate) (r : AlbumRecognition.MBRelease)
    (h1 : (st.2.map (fun c => c.external_id)).Nodup)
    (h2 : ∀ c ∈ st.2, c.external_id ∈ st.1) :
    ((AlbumRecognition.mbStep evalRel st r).2.map (fun c => c.external_id)).Nodup ∧
      ∀ c ∈ (AlbumRecognition.mbStep evalRel st r).2,
        c.external_id ∈ (AlbumRecognition.mbStep evalRel st r).1 := by
  unfold AlbumRecognition.mbStep
  by_cases hc : st.1.contains r.id
  · simp only [hc, if_true]
    exact ⟨h1, h2⟩
  · have hnm : r.id ∉ st.1 := fun hm => hc (List.elem_iff.mpr hm)
    simp only [hc, if_false, Bool.false_eq_true]
    cases hev2 : evalRel r with
    | none =>
      refine ⟨h1, fun c hcm => List.mem_append_left _ (h2 c hcm)⟩
    | some c =>
      by_cases hcc : c.confidence > 1/5
      · simp only [hcc, if_true]
        constructor
        · rw [List.map_append]
          refine (List.nodup_append).mpr ⟨h1, List.nodup_singleton _, ?_⟩
          intro x hx hx1
          rcases List.mem_map.mp hx with ⟨d, hd, hdx⟩
          have hx1b : x = c.external_id := by simpa using hx1
          have hx2 : x = r.id := by rw [hx1b, hev r c hev2]
          have hx3 : x ∈ st.1 := hdx ▸ h2 d hd
          exact hnm (hx2 ▸ hx3)
        · intro d hd
          rcases List.mem_append.mp hd with hdl | hdr
          · exact List.mem_append_left _ (h2 d hdl)
          · rw [List.mem_singleton.mp hdr, hev r c hev2]
            exact List.mem_append_right _ (List.mem_singleton.mpr rfl)
      · simp only [hcc, if_false]
        refine ⟨h1, fun d hdm => List.mem_append_left _ (h2 d hdm)⟩

/-- Folding the MusicBrainz step over a search-result list preserves the dedup
invariant. -/
theorem foldl_mbStep_inv
    (evalRel : AlbumRecognition.MBRelease → Option AlbumRecognition.AlbumCandidate)
    (hev : ∀ r c, evalRel r = some c → c.external_id = r.id)
    (l : List AlbumRecognition.MBRelease)
    (st : List PyStr × List AlbumRecognition.AlbumCandidate)
    (h1 : (st.2.map (fun c => c.external_id)).Nodup)
    (h2 : ∀ c ∈ st.2, c.external_id ∈ st.1) :
    ((l.foldl (AlbumRecognition.mbStep evalRel) st).2.map (fun c => c.external_id)).Nodup ∧
      ∀ c ∈ (l.foldl (AlbumRecognition.mbStep evalRel) st).2,
        c.external_id ∈ (l.foldl (AlbumRecognition.mbStep evalRel) st).1 := by
  induction l generalizing st with
  | nil => exact ⟨h1, h2⟩
  | cons r t ih =>
    have hstep := mbStep_inv evalRel hev st r h1 h2
    exact ih _ hstep.1 hstep.2

/-- Folding the per-track widening searches also preserves the invariant. -/
theorem foldl2_mbStep_inv
    (evalRel : AlbumRecognition.MBRelease → Option AlbumRecognition.AlbumCandidate)
    (hev : ∀ r c, evalRel r = some c → c.external_id = r.id)
    (search : PyStr → List AlbumRecognition.MBRelease) (ts : List PyStr)
    (st : List PyStr × List AlbumRecognition.AlbumCandidate)
    (h1 : (st.2.map (fun c => c.external_id)).Nodup)
    (h2 : ∀ c ∈ st.2, c.external_id ∈ st.1) :
    ((ts.foldl (fun st t => (search t).foldl (AlbumRecognition.mbStep evalRel) st) st).2.map
        (fun c => c.external_id)).Nodup ∧
      ∀ c ∈ (ts.foldl (fun st t => (search t).foldl (AlbumRecognition.mbStep evalRel) st) st).2,
        c.external_id ∈
          (ts.foldl (fun st t => (search t).foldl (AlbumRecognition.mbStep evalRel) st) st).1 := by
  induction ts generalizing st with
  | nil => exact ⟨h1, h2⟩
  | cons u us ih =>
    have hstep := foldl_mbStep_inv evalRel hev (search u) st h1 h2
    exact ih _ hstep.1 hstep.2

/-- The MusicBrainz search never returns two candidates with the same external
release id (when release evaluation reports the release's own id). -/
theorem search_musicbrainz_nodup (env : AlbumRecognition.RecognizeEnv)
    (files_info : List AlbumRecognition.FileInfo)
    (hev : ∀ r c, env.mbEval r = some c → c.external_id = r.id) :
    ((AlbumRecognition.search_musicbrainz env files_info).map
      (fun c => c.external_id)).Nodup := by
  simp only [AlbumRecognition.search_musicbrainz]
  split_ifs with hempty hwide
  · exact List.nodup_nil
  · exact (foldl2_mbStep_inv env.mbEval hev env.mbTrackSearch _ _
      (foldl_mbStep_inv env.mbEval hev env.mbArtistSearch ([], []) List.nodup_nil
        (fun c hc => absurd hc (List.not_mem_nil c))).1
      (foldl_mbStep_inv env.mbEval hev env.mbArtistSearch ([], []) List.nodup_nil
        (fun c hc => absurd hc (List.not_mem_nil c))).2).1
  · exact (foldl_mbStep_inv env.mbEval hev env.mbArtistSearch ([], []) List.nodup_nil
      (fun c hc => absurd hc (List.not_mem_nil c))).1

/-- Members of a stable descending insertion. -/
theorem mem_insertByConfDesc {x y : AlbumRecognition.AlbumCandidate}
    {l : List AlbumRecognition.AlbumCandidate} :
    y ∈ AlbumRecognition.insertByConfDesc x l ↔ y = x ∨ y ∈ l := by
  induction l with
  | nil => simp [AlbumRecognition.insertByConfDesc]
  | cons a t ih =>
    unfold AlbumRecognition.insertByConfDesc
    split_ifs with hle
    · simp only [List.mem_cons, ih]
      tauto
    · simp only [List.mem_cons]

/-- A stable descending insertion preserves descending order. -/
theorem pairwise_insertByConfDesc (x : AlbumRecognition.AlbumCandidate)
    (l : List AlbumRecognition.AlbumCandidate)
    (h : l.Pairwise (fun a b => b.confidence ≤ a.confidence)) :
    (AlbumRecognition.insertByConfDesc x l).Pairwise
      (fun a b => b.confidence ≤ a.confidence) := by
  induction l with
  | nil => simp [AlbumRecognition.insertByConfDesc]
  | cons a t ih =>
    unfold AlbumRecognition.insertByConfDesc
    split_ifs with hle
    · refine List.Pairwise.cons ?_ (ih (List.pairwise_cons.mp h).2)
      · intro z hz
        rcases mem_insertByConfDesc.mp hz with hz1 | hz2
        · rw [hz1]
          exact hle
        · exact (List.pairwise_cons.mp h).1 z hz2
    · refine List.Pairwise.cons ?_ h
      intro z hz
      rcases List.mem_cons.mp hz with hz1 | hz2
      · rw [hz1]
        exact le_of_not_le hle
      · exact le_trans ((List.pairwise_cons.mp h).1 z hz2) (le_of_not_le hle)

/-- The descending sort of `recognize_album` is descending by confidence. -/
theorem sortByConfDesc_pairwise (l : List AlbumRecognition.AlbumCandidate) :
    (AlbumRecognition.sortByConfDesc l).Pairwise
      (fun a b => b.confidence ≤ a.confidence) := by
  unfold AlbumRecognition.sortByConfDesc
  suffices h : ∀ acc : List AlbumRecognition.AlbumCandidate,
      acc.Pairwise (fun a b => b.confidence ≤ a.confidence) →
      (l.foldl (fun acc x => AlbumRecognition.insertByConfDesc x acc) acc).Pairwise
        (fun a b => b.confidence ≤ a.confidence) from h [] (List.Pairwise.nil)
  induction l with
  | nil => exact fun acc h => h
  | cons a t ih => exact fun acc hacc => ih _ (pairwise_insertByConfDesc a acc hacc)

/-- **C9 counterexample**: a release surfacing through two Discogs search
entries is not collapsed — the final candidate list of `recognize_album`
contains two distinct candidates carrying the same external release id `7`
(deduplication by release id happens only inside the MusicBrainz search). -/
theorem C9_counterexample :
    (AlbumRecognition.recognize_album AlbumRecognition.c9Env [] AlbumRecognition.c9Files).result.1
      = [AlbumRecognition.c9CandA, AlbumRecognition.c9CandB] ∧
    AlbumRecognition.c9CandA.external_id = AlbumRecognition.c9CandB.external_id ∧
    AlbumRecognition.c9CandA ≠ AlbumRecognition.c9CandB := by
  refine ⟨?_, rfl, ?_⟩
  · with_unfolding_all rfl
  · intro h
    have ht : AlbumRecognition.c9CandA.title = AlbumRecognition.c9CandB.title := by rw [h]
    exact absurd ht (by decide)

/-- **C9 amended**: release-id deduplication happens only within the
MusicBrainz search (across its artist-level and per-track discovery paths);
candidates from the Discogs fallback are appended without cross-provider
deduplication. On a cache miss with a non-empty input the final list is
sorted descending by confidence and holds at most 5 candidates. -/
theorem C9_amended (env : AlbumRecognition.RecognizeEnv)
    (cache : AlbumRecognition.Cache) (files_info : List AlbumRecognition.FileInfo)
    (h1 : files_info ≠ [])
    (h2 : AlbumRecognition.cacheLookup cache
      (AlbumRecognition.generate_cache_key files_info) = none)
    (hev : ∀ r c, env.mbEval r = some c → c.external_id = r.id) :
    ((AlbumRecognition.search_musicbrainz env files_info).map
      (fun c => c.external_id)).Nodup ∧
    (AlbumRecognition.recognize_album env cache files_info).result.1.length ≤ 5 ∧
    (AlbumRecognition.recognize_album env cache files_info).result.1.Pairwise
      (fun a b => b.confidence ≤ a.confidence) := by
  refine ⟨search_musicbrainz_nodup env files_info hev, ?_, ?_⟩
  · simp only [AlbumRecognition.recognize_album, if_neg h1, h2]
    rw [List.length_take]
    exact min_le_left _ _
  · simp only [AlbumRecognition.recognize_album, if_neg h1, h2]
    exact List.Pairwise.sublist (List.take_sublist 5 _) (sortByConfDesc_pairwise _)

/-- A string containing `sep` has a first occurrence index. -/
theorem findSubIdx_isSome_of_hasSub (s sep : PyStr) (h : hasSub s sep = true) :
    ∃ i, findSubIdx s sep = some i := by
  induction s with
  | nil =>
    unfold hasSub at h
    refine ⟨0, ?_⟩
    unfold findSubIdx
    simp only [Bool.or_false] at h
    simp [h]
  | cons c ds ih =>
    by_cases hs : startsList (c :: ds) sep = true
    · exact ⟨0, by unfold findSubIdx; simp [hs]⟩
    · unfold hasSub at h
      rw [Bool.or_eq_true] at h
      rcases h with h1 | h2
      · exact absurd h1 hs
      · obtain ⟨i, hi⟩ := ih h2
        refine ⟨i + 1, ?_⟩
        unfold findSubIdx
        simp [hs, hi]

/-- **C6 amended**: the directory rules are applied in the source's `elif`
order, not the spec's: when both the parent and grandparent path components
are non-empty, only the two-level artist/album rule can fire (0.7 when the
parent looks like an album and the grandparent is not generic, otherwise
nothing); the `artist - album` rule (0.8) fires only when the grandparent
component is empty and the parent contains " - "; and the generic-container
rule (0.6) is unreachable, so the directory confidence is never 0.6. -/
theorem C6_amended (file_path : PyStr) :
    (∀ parent grand,
      parent = (splitSep (chars ("/")) file_path).getD
        ((splitSep (chars ("/")) file_path).length - 2) [] →
      grand = (splitSep (chars ("/")) file_path).getD
        ((splitSep (chars ("/")) file_path).length - 3) [] →
      3 ≤ (splitSep (chars ("/")) file_path).length →
      parent ≠ [] → grand ≠ [] →
      FallbackAnalysis.analyze_directory_structure file_path =
        (if FallbackAnalysis.looks_like_album parent ∧
            ¬ FallbackAnalysis.looks_like_generic_folder grand then
          ⟨some (FallbackAnalysis.clean_name grand), some (FallbackAnalysis.clean_name parent),
            none, 7/10⟩
        else ⟨none, none, none, 0⟩)) ∧
    (∀ parent grand,
      parent = (splitSep (chars ("/")) file_path).getD
        ((splitSep (chars ("/")) file_path).length - 2) [] →
      grand = (splitSep (chars ("/")) file_path).getD
        ((splitSep (chars ("/")) file_path).length - 3) [] →
      3 ≤ (splitSep (chars ("/")) file_path).length →
      grand = [] → parent ≠ [] → hasSub parent (chars (" - ")) = true →
      (FallbackAnalysis.analyze_directory_structure file_path).confidence = 4/5) ∧
    (FallbackAnalysis.analyze_directory_structure file_path).confidence ≠ 3/5 := by
  refine ⟨?_, ?_, ?_⟩
  · intro parent grand hp hg hlen hpne hgne
    subst hp
    subst hg
    simp only [FallbackAnalysis.analyze_directory_structure]
    rw [if_pos hlen, if_pos (And.intro hpne hgne)]
  · intro parent grand hp hg hlen hge hpne hsub
    subst hp
    subst hg
    simp only [FallbackAnalysis.analyze_directory_structure]
    rw [if_pos hlen, if_neg (fun hand => hand.2 hge), if_pos (And.intro hpne hsub)]
    obtain ⟨i, hi⟩ := findSubIdx_isSome_of_hasSub _ _ hsub
    simp only [splitOnce, hi]
  · simp only [FallbackAnalysis.analyze_directory_structure]
    generalize splitSep (chars ("/")) file_path = parts
    by_cases hlen : parts.length ≥ 3
    · rw [if_pos hlen]
      by_cases hA : parts.getD (parts.length - 2) [] ≠ [] ∧ parts.getD (parts.length - 3) [] ≠ []
      · rw [if_pos hA]
        by_cases hB : FallbackAnalysis.looks_like_album (parts.getD (parts.length - 2) []) ∧
            ¬ FallbackAnalysis.looks_like_generic_folder (parts.getD (parts.length - 3) [])
        · rw [if_pos hB]
          norm_num
        · rw [if_neg hB]
          norm_num
      · rw [if_neg hA]
        by_cases hC : parts.getD (parts.length - 2) [] ≠ [] ∧
            hasSub (parts.getD (parts.length - 2) []) (chars (" - ")) = true
        · rw [if_pos hC]
          rcases hsp : splitOnce (chars (" - ")) (parts.getD (parts.length - 2) []) with ⟨p1, po⟩
          cases po with
          | none =>
            simp only [hsp]
            norm_num
          | some p2 =>
            simp only [hsp]
            norm_num
        · rw [if_neg hC]
          by_cases hD : optTruthy
              (if parts.length ≥ 4 then some (parts.getD (parts.length - 4) []) else none) = true ∧
              parts.getD (parts.length - 2) [] ≠ [] ∧ parts.getD (parts.length - 3) [] ≠ []
          · exact absurd (And.intro hD.2.1 hD.2.2) hA
          · rw [if_neg hD]
            by_cases hE : parts.getD (parts.length - 2) [] ≠ [] ∧
                ¬ FallbackAnalysis.looks_like_generic_folder (parts.getD (parts.length - 2) []) = true
            · rw [if_pos hE]
              norm_num
            · rw [if_neg hE]
              norm_num
    · rw [if_neg hlen]
      norm_num

/-- Witness instantiating `C1_amended` at a concrete file/track list. -/
theorem C1_amended_witness :
    ([(⟨some (chars ("a")), none⟩ : AlbumRecognition.FileInfo)].filter
        (fun f => optTruthy f.title) ≠ [] ∧
      ([(⟨some (chars ("a"))⟩ : AlbumRecognition.TrackInfo)]) ≠ []) ∧
    AlbumRecognition.calculate_confidence [⟨some (chars ("a")), none⟩] [⟨some (chars ("a"))⟩] =
      (let file_titles := ([(⟨some (chars ("a")), none⟩ : AlbumRecognition.FileInfo)].filter
          (fun f => optTruthy f.title)).map (fun f => pyStrip (pyLower (f.title.getD [])))
       let album_titles := [(⟨some (chars ("a"))⟩ : AlbumRecognition.TrackInfo)].map
          (fun t => pyStrip (pyLower (t.title.getD [])))
       let exactMatches : ℕ := file_titles.countP (fun ft => album_titles.contains ft)
       let fuzzyAll : ℕ :=
         file_titles.countP
           (fun ft => album_titles.any (fun a2 => AlbumRecognition.claimFuzzyPred ft a2))
       let base := ((exactMatches : ℚ) * 1 + (fuzzyAll : ℚ) * (7/10)) / (file_titles.length : ℚ)
       min (if |(([(⟨some (chars ("a"))⟩ : AlbumRecognition.TrackInfo)]).length : ℤ) -
              ((file_titles).length : ℤ)| ≤ 2
            then base + 1/10 else base) 1) :=
  ⟨⟨by decide, by decide⟩, C1_amended _ _ (by decide) (by decide)⟩

/-- Witness instantiating `C2_stage_short_circuit` with a path-analysis stage
of confidence 0.7. -/
theorem C2_witness :
    (FallbackAnalysis.get_fallback_suggestions
        (some ⟨none, none, none, 7/10, []⟩) none none none).2 = false :=
  C2_stage_short_circuit _ _ _ _ ⟨⟨none, none, none, 7/10, []⟩, Or.inl rfl, by norm_num⟩

/-- Witness instantiating `C3_provider_failure_isolation` with a raising
MusicBrainz lookup and a concrete Last.fm result. -/
theorem C3_witness :
    OnlineMetadata.search_metadata ⟨chars ("a"), chars ("t"), [], []⟩ none none none
        (Except.error (chars ("boom"))) true
        (Except.ok (some (OnlineMetadata.baseResults none none none)))
      = OnlineMetadata.baseResults none none none :=
  (C3_provider_failure_isolation ⟨chars ("a"), chars ("t"), [], []⟩ none none none
    (chars ("boom")) (some (OnlineMetadata.baseResults none none none))
    (by decide) (by decide)).2 _ rfl

/-- Witness instantiating `C4_acceptance_threshold` with a confidence-0.5
result. -/
theorem C4_witness :
    (Core.processMetadataResult ⟨[], none, none, none, none, none, none, none, none, none⟩
        (some ⟨some (chars ("x")), none, none, none, none, 1/2⟩)).online_metadata
      = some ⟨some (chars ("x")), none, none, none, none, 1/2⟩ :=
  ((C4_acceptance_threshold ⟨[], none, none, none, none, none, none, none, none, none⟩
    ⟨some (chars ("x")), none, none, none, none, 1/2⟩).1.mpr (by norm_num)).2.2.2.2.2

/-- Witness instantiating `C6_amended` (second part) at the path
"/Artist - Album/song.mp3", where the grandparent component is empty. -/
theorem C6_amended_witness :
    (FallbackAnalysis.analyze_directory_structure
        (chars ("/Artist - Album/song.mp3"))).confidence = 4/5 :=
  (C6_amended (chars ("/Artist - Album/song.mp3"))).2.1 _ _ rfl rfl
    (by decide) (by decide) (by decide) (by decide)

/-- Witness instantiating `C8_confidence_bounds` with the constant ratio
oracle 1/2 and empty inputs. -/
theorem C8_witness :
    (0 ≤ OnlineMetadata.calculate_confidence (fun _ _ => 1/2) ⟨[], [], [], []⟩ [] [] [] ∧
      OnlineMetadata.calculate_confidence (fun _ _ => 1/2) ⟨[], [], [], []⟩ [] [] [] ≤ 1) ∧
    (0 ≤ AlbumRecognition.calculate_confidence [] [] ∧
      AlbumRecognition.calculate_confidence [] [] ≤ 1) :=
  C8_confidence_bounds (fun _ _ => 1/2) (fun _ _ => ⟨by norm_num, by norm_num⟩)
    ⟨[], [], [], []⟩ [] [] [] [] []

/-- Witness instantiating `C9_amended` at the concrete Discogs-duplication
environment (cache empty, one input file). -/
theorem C9_amended_witness :
    ((AlbumRecognition.search_musicbrainz AlbumRecognition.c9Env AlbumRecognition.c9Files).map
      (fun c => c.external_id)).Nodup ∧
    (AlbumRecognition.recognize_album AlbumRecognition.c9Env []
      AlbumRecognition.c9Files).result.1.length ≤ 5 ∧
    (AlbumRecognition.recognize_album AlbumRecognition.c9Env []
      AlbumRecognition.c9Files).result.1.Pairwise
        (fun a b => b.confidence ≤ a.confidence) :=
  C9_amended AlbumRecognition.c9Env [] AlbumRecognition.c9Files (by decide) rfl
    (fun r c h => Option.noConfusion h)
